import Mathlib

/-!
Verification of the pairing-authentication core of the `rust-adb` repository.

The repository contains two implementations of the same protocol glue:
* `src/rust/rust-adb-pairing-auth/` — builder pattern (`PairingAuthCtxBuilder`
  consumed by value into a `PairingAuthCtx`);
* `src/rust-adb-pairing-auth/` — a single mutable context
  (`PairingAuthCtx` with `Option` slots for the exchange state and cipher).

The cryptographic primitives (SPAKE2 over Ed25519, HKDF-SHA256, AES-128-GCM)
are external library crates, not part of the repository; they are modelled
as an abstract record of functions (`CryptoPrims`), over which the
repository's own code (sequence counters, nonce construction, error
mapping, state handling) is embedded and verified.  Bytes are modelled as
natural numbers, byte sequences as `List Nat`, and the Rust `u64` counters
as `Nat` reduced modulo `2 ^ 64` at each increment.
-/

/-- The modulus of a Rust `u64`: counter increments `self.x += 1` are
modelled as `(x + 1) % u64Mod`. -/
def u64Mod : Nat := 2 ^ 64

/-- `u64::to_le_bytes`: the 8 little-endian bytes of a 64-bit value. -/
def le64Bytes (n : Nat) : List Nat :=
  [n % 256, n / 256 % 256, n / 256 ^ 2 % 256, n / 256 ^ 3 % 256,
   n / 256 ^ 4 % 256, n / 256 ^ 5 % 256, n / 256 ^ 6 % 256, n / 256 ^ 7 % 256]

/-- The 12-byte AES-GCM nonce built by both `encrypt` and `decrypt` in
`src/rust/rust-adb-pairing-auth/src/aes_128_gcm.rs`: a zeroed 12-byte buffer
whose first 8 bytes are overwritten with the sequence counter in
little-endian order. -/
def nonceOf (s : Nat) : List Nat :=
  le64Bytes s ++ List.replicate 4 0

/-- Abstract model of the external cryptographic crates used by the
repository (`spake2`, `hkdf`+`sha2`, `aes-gcm`).  The SPAKE2 protocol state
is opaque bytes.
* `startA p idA idB` / `startB p idA idB` model
  `Spake2::<Ed25519Group>::start_a/start_b(password, idA, idB)`,
  returning `(state, outbound message)`.
* `finish st msg` models `Spake2::finish`, returning key material or a
  SPAKE2 error.
* `hkdfExpand salt ikm info len` models `Hkdf::<Sha256>::new(salt, ikm)`
  followed by `expand(info, okm)` with `okm.len() = len`.
* `aesGcmEnc key nonce aad plaintext` / `aesGcmDec key nonce aad ct` model
  the `aes_gcm::Aead` encrypt/decrypt calls; the repository always passes
  an empty associated-data component. -/
structure CryptoPrims where
  startA : List Nat → List Nat → List Nat → List Nat × List Nat
  startB : List Nat → List Nat → List Nat → List Nat × List Nat
  finish : List Nat → List Nat → Except Unit (List Nat)
  hkdfExpand : Option (List Nat) → List Nat → List Nat → Nat → Except Unit (List Nat)
  aesGcmEnc : List Nat → List Nat → List Nat → List Nat → Except Unit (List Nat)
  aesGcmDec : List Nat → List Nat → List Nat → List Nat → Except Unit (List Nat)

/-- `Aes128GcmError` from `src/rust/rust-adb-pairing-auth/src/aes_128_gcm.rs`. -/
inductive Aes128GcmError where
  | KeyMaterialEmpty
  | HkdfInvalidLength
  | EncryptionFailed
  | DecryptionFailed
  deriving DecidableEq, Repr

/-- `Aes128GcmCipher` from `aes_128_gcm.rs`: the derived key plus the two
`u64` sequence counters. -/
structure Aes128GcmCipher where
  key : List Nat
  enc_sequence : Nat
  dec_sequence : Nat
  deriving DecidableEq, Repr

/-- The `INFO` constant of `aes_128_gcm.rs`: the bytes of the Rust literal
`b"adb pairing_auth aes-128-gcm key"` (32 ASCII bytes). -/
def INFO : List Nat :=
  [97, 100, 98, 32,
   112, 97, 105, 114, 105, 110, 103, 95, 97, 117, 116, 104, 32,
   97, 101, 115, 45, 49, 50, 56, 45, 103, 99, 109, 32,
   107, 101, 121]

/-- `HKDF_KEY_LENGTH` from `aes_128_gcm.rs`. -/
def HKDF_KEY_LENGTH : Nat := 16

/-- `Aes128GcmCipher::new`: reject empty key material, then derive the key
with HKDF (no salt, `INFO`, 16 bytes) and start both counters at 0. -/
def Aes128GcmCipher.new (P : CryptoPrims) (key_material : List Nat) :
    Except Aes128GcmError Aes128GcmCipher :=
  if key_material = [] then
    .error .KeyMaterialEmpty
  else
    match P.hkdfExpand none key_material INFO HKDF_KEY_LENGTH with
    | .error _ => .error .HkdfInvalidLength
    | .ok okm => .ok { key := okm, enc_sequence := 0, dec_sequence := 0 }

/-- `Aes128GcmCipher::encrypt`: build the nonce from `enc_sequence`, call
AES-128-GCM with empty associated data, and increment `enc_sequence` only
on success.  The Rust method mutates `self`; here the (possibly updated)
cipher state is returned alongside the `Result`. -/
def Aes128GcmCipher.encrypt (P : CryptoPrims) (c : Aes128GcmCipher) (data : List Nat) :
    Except Aes128GcmError (List Nat) × Aes128GcmCipher :=
  match P.aesGcmEnc c.key (nonceOf c.enc_sequence) [] data with
  | .error _ => (.error .EncryptionFailed, c)
  | .ok result =>
      (.ok result, { c with enc_sequence := (c.enc_sequence + 1) % u64Mod })

/-- `Aes128GcmCipher::decrypt`: build the nonce from `dec_sequence`, call
AES-128-GCM decryption/verification, and increment `dec_sequence` only on
success. -/
def Aes128GcmCipher.decrypt (P : CryptoPrims) (c : Aes128GcmCipher) (data : List Nat) :
    Except Aes128GcmError (List Nat) × Aes128GcmCipher :=
  match P.aesGcmDec c.key (nonceOf c.dec_sequence) [] data with
  | .error _ => (.error .DecryptionFailed, c)
  | .ok result =>
      (.ok result, { c with dec_sequence := (c.dec_sequence + 1) % u64Mod })

/-- `Role` from `src/rust/rust-adb-pairing-auth/src/lib.rs` (identical in the
mutable-context crate). -/
inductive Role where
  | Client
  | Server
  deriving DecidableEq, Repr

/-- `CLIENT_NAME`: the bytes of `b"adb pair client"`. -/
def CLIENT_NAME : List Nat :=
  [97, 100, 98, 32, 112, 97, 105, 114, 32, 99, 108, 105, 101, 110, 116]

/-- `SERVER_NAME`: the bytes of `b"adb pair server"`. -/
def SERVER_NAME : List Nat :=
  [97, 100, 98, 32, 112, 97, 105, 114, 32, 115, 101, 114, 118, 101, 114]

/-- `PairingAuthError` from the builder crate
`src/rust/rust-adb-pairing-auth/src/lib.rs`. -/
inductive PairingAuthError where
  | Spake2Error
  | CipherError (e : Aes128GcmError)
  | PasswordEmpty
  deriving DecidableEq, Repr

/-- `PairingAuthCtxBuilder` from the builder crate: SPAKE2 state plus the
outbound message. -/
structure PairingAuthCtxBuilder where
  state : List Nat
  our_msg : List Nat
  deriving DecidableEq, Repr

/-- `PairingAuthCtx` from the builder crate: just the ready cipher. -/
structure PairingAuthCtx where
  cipher : Aes128GcmCipher
  deriving DecidableEq, Repr

/-- `PairingAuthCtxBuilder::new`: reject an empty password, otherwise start
SPAKE2 in the role-appropriate direction with the two fixed identities. -/
def PairingAuthCtxBuilder.new (P : CryptoPrims) (pswd : List Nat) (role : Role) :
    Except PairingAuthError PairingAuthCtxBuilder :=
  if pswd = [] then
    .error .PasswordEmpty
  else
    let sm := match role with
      | .Client => P.startA pswd CLIENT_NAME SERVER_NAME
      | .Server => P.startB pswd CLIENT_NAME SERVER_NAME
    .ok { state := sm.1, our_msg := sm.2 }

/-- `PairingAuthCtxBuilder::msg`. -/
def PairingAuthCtxBuilder.msg (b : PairingAuthCtxBuilder) : List Nat :=
  b.our_msg

/-- `PairingAuthCtxBuilder::init_cipher`: finish the exchange with the
peer's message, build the cipher from the key material, and return the
ready context.  The Rust method consumes the builder by value. -/
def PairingAuthCtxBuilder.init_cipher (P : CryptoPrims) (b : PairingAuthCtxBuilder)
    (their_msg : List Nat) : Except PairingAuthError PairingAuthCtx :=
  match P.finish b.state their_msg with
  | .error _ => .error .Spake2Error
  | .ok key_material =>
      match Aes128GcmCipher.new P key_material with
      | .error e => .error (.CipherError e)
      | .ok cipher => .ok { cipher := cipher }

/-- `PairingAuthCtx::encrypt` (builder crate): delegate to the cipher and
wrap its error. -/
def PairingAuthCtx.encrypt (P : CryptoPrims) (ctx : PairingAuthCtx) (data : List Nat) :
    Except PairingAuthError (List Nat) × PairingAuthCtx :=
  let r := Aes128GcmCipher.encrypt P ctx.cipher data
  (Except.mapError PairingAuthError.CipherError r.1, { cipher := r.2 })

/-- `PairingAuthCtx::decrypt` (builder crate). -/
def PairingAuthCtx.decrypt (P : CryptoPrims) (ctx : PairingAuthCtx) (data : List Nat) :
    Except PairingAuthError (List Nat) × PairingAuthCtx :=
  let r := Aes128GcmCipher.decrypt P ctx.cipher data
  (Except.mapError PairingAuthError.CipherError r.1, { cipher := r.2 })

/-- `PairingAuthError` from the mutable-context crate
`src/rust-adb-pairing-auth/src/lib.rs` (its `Spake2Error` payload, a
`spake2::Error`, is dropped in the model). -/
inductive MutPairingAuthError where
  | Spake2Error
  | CipherError (e : Aes128GcmError)
  | PasswordEmpty
  | CipherNotInitialized
  | AlreadyInitialized
  deriving DecidableEq, Repr

/-- `PairingAuthCtx` from the mutable-context crate: `Option` slots for the
SPAKE2 state and the cipher. -/
structure MutPairingAuthCtx where
  state : Option (List Nat)
  our_msg : List Nat
  cipher : Option Aes128GcmCipher
  deriving DecidableEq, Repr

/-- `PairingAuthCtx::new` (mutable-context crate). -/
def MutPairingAuthCtx.new (P : CryptoPrims) (pswd : List Nat) (role : Role) :
    Except MutPairingAuthError MutPairingAuthCtx :=
  if pswd = [] then
    .error .PasswordEmpty
  else
    let sm := match role with
      | .Client => P.startA pswd CLIENT_NAME SERVER_NAME
      | .Server => P.startB pswd CLIENT_NAME SERVER_NAME
    .ok { state := some sm.1, our_msg := sm.2, cipher := none }

/-- `PairingAuthCtx::init_cipher` (mutable-context crate):
`self.state.take()` removes the exchange state before `finish` runs, so the
state slot is `none` afterwards on every path, success or failure. -/
def MutPairingAuthCtx.init_cipher (P : CryptoPrims) (ctx : MutPairingAuthCtx)
    (their_msg : List Nat) : Except MutPairingAuthError Unit × MutPairingAuthCtx :=
  match ctx.state with
  | none => (.error .AlreadyInitialized, ctx)
  | some st =>
      let ctx' := { ctx with state := none }
      match P.finish st their_msg with
      | .error _ => (.error .Spake2Error, ctx')
      | .ok key_material =>
          match Aes128GcmCipher.new P key_material with
          | .error e => (.error (.CipherError e), ctx')
          | .ok c => (.ok (), { ctx' with cipher := some c })

/-- `PairingAuthCtx::encrypt` (mutable-context crate). -/
def MutPairingAuthCtx.encrypt (P : CryptoPrims) (ctx : MutPairingAuthCtx) (data : List Nat) :
    Except MutPairingAuthError (List Nat) × MutPairingAuthCtx :=
  match ctx.cipher with
  | none => (.error .CipherNotInitialized, ctx)
  | some c =>
      let r := Aes128GcmCipher.encrypt P c data
      (Except.mapError MutPairingAuthError.CipherError r.1, { ctx with cipher := some r.2 })

/-- `PairingAuthCtx::decrypt` (mutable-context crate). -/
def MutPairingAuthCtx.decrypt (P : CryptoPrims) (ctx : MutPairingAuthCtx) (data : List Nat) :
    Except MutPairingAuthError (List Nat) × MutPairingAuthCtx :=
  match ctx.cipher with
  | none => (.error .CipherNotInitialized, ctx)
  | some c =>
      let r := Aes128GcmCipher.decrypt P c data
      (Except.mapError MutPairingAuthError.CipherError r.1, { ctx with cipher := some r.2 })

/-- A single cipher-level operation in a session trace. -/
inductive CipherOp where
  | enc (data : List Nat)
  | dec (data : List Nat)
  deriving DecidableEq, Repr

/-- Run a list of operations on a cipher, threading the state through the
embedded `encrypt`/`decrypt`, and collect, for each *successful* encrypt,
the `(nonce, associated data)` pair that the source passes to the AEAD
primitive for that call. -/
def cipherRun (P : CryptoPrims) : Aes128GcmCipher → List CipherOp →
    Aes128GcmCipher × List (List Nat × List Nat)
  | c, [] => (c, [])
  | c, CipherOp.enc d :: ops =>
      let r := Aes128GcmCipher.encrypt P c d
      let rest := cipherRun P r.2 ops
      match r.1 with
      | .ok _ => (rest.1, (nonceOf c.enc_sequence, ([] : List Nat)) :: rest.2)
      | .error _ => (rest.1, rest.2)
  | c, CipherOp.dec d :: ops =>
      cipherRun P (Aes128GcmCipher.decrypt P c d).2 ops

/-- A single operation on the mutable-context implementation. -/
inductive CtxOp where
  | ini (their_msg : List Nat)
  | enc (data : List Nat)
  | dec (data : List Nat)
  deriving DecidableEq, Repr

/-- Run a list of operations on a mutable context, discarding results and
threading the state. -/
def ctxRun (P : CryptoPrims) : MutPairingAuthCtx → List CtxOp → MutPairingAuthCtx
  | ctx, [] => ctx
  | ctx, CtxOp.ini m :: ops => ctxRun P (MutPairingAuthCtx.init_cipher P ctx m).2 ops
  | ctx, CtxOp.enc d :: ops => ctxRun P (MutPairingAuthCtx.encrypt P ctx d).2 ops
  | ctx, CtxOp.dec d :: ops => ctxRun P (MutPairingAuthCtx.decrypt P ctx d).2 ops

/-- Sequential round trips between a client context and a server context
(builder crate): for each pair `(m1, m2)` the client encrypts `m1`, the
server decrypts it, then the server encrypts `m2` and the client decrypts
it; the recovered pairs are collected. -/
def echoRounds (P : CryptoPrims) : PairingAuthCtx → PairingAuthCtx →
    List (List Nat × List Nat) →
    Except PairingAuthError (List (List Nat × List Nat)) × (PairingAuthCtx × PairingAuthCtx)
  | cc, cs, [] => (.ok [], (cc, cs))
  | cc, cs, (m1, m2) :: ms =>
      let e1 := PairingAuthCtx.encrypt P cc m1
      match e1.1 with
      | .error e => (.error e, (e1.2, cs))
      | .ok ct1 =>
          let d1 := PairingAuthCtx.decrypt P cs ct1
          match d1.1 with
          | .error e => (.error e, (e1.2, d1.2))
          | .ok pt1 =>
              let e2 := PairingAuthCtx.encrypt P d1.2 m2
              match e2.1 with
              | .error e => (.error e, (e1.2, e2.2))
              | .ok ct2 =>
                  let d2 := PairingAuthCtx.decrypt P e1.2 ct2
                  match d2.1 with
                  | .error e => (.error e, (d2.2, e2.2))
                  | .ok pt2 =>
                      let rest := echoRounds P d2.2 e2.2 ms
                      (Except.map (fun l => (pt1, pt2) :: l) rest.1, rest.2)

/-- A concrete instantiation of the abstract primitives, used to witness
theorems whose hypotheses are the cryptographic soundness assumptions.
SPAKE2 is modelled by tagging the password with the role and recovering the
password as key material; HKDF is the identity on the input key material;
the AEAD prefixes the ciphertext with the lengths of the key and nonce
followed by key, nonce and plaintext, and decryption checks the key/nonce
prefix. -/
def toyPrims : CryptoPrims where
  startA := fun p _ _ => (0 :: p, [0])
  startB := fun p _ _ => (1 :: p, [1])
  finish := fun st _ => .ok (st.drop 1)
  hkdfExpand := fun _ ikm _ _ => .ok ikm
  aesGcmEnc := fun k n _ m => .ok (k.length :: n.length :: (k ++ n ++ m))
  aesGcmDec := fun k n _ c =>
    match c with
    | lk :: ln :: rest =>
        if lk = k.length ∧ ln = n.length ∧ rest.take (k.length + n.length) = k ++ n then
          .ok (rest.drop (k.length + n.length))
        else
          .error ()
    | _ => .error ()

/-- The toy AEAD never fails to encrypt. -/
theorem toyPrims_enc_total (k n a m : List Nat) :
    toyPrims.aesGcmEnc k n a m = .ok (k.length :: n.length :: (k ++ n ++ m)) :=
  rfl

/-- The toy AEAD satisfies the AEAD round-trip law. -/
theorem toyPrims_roundtrip (k n a m ct : List Nat)
    (h : toyPrims.aesGcmEnc k n a m = .ok ct) :
    toyPrims.aesGcmDec k n a ct = .ok m := by
  have hct : ct = k.length :: n.length :: (k ++ n ++ m) := by
    simpa [toyPrims] using h.symm
  subst hct
  have htake : List.take (k.length + n.length) (k ++ (n ++ m)) = k ++ n := by
    simpa [List.length_append] using @List.take_left Nat (k ++ n) m
  have hdrop : List.drop (k.length + n.length) (k ++ (n ++ m)) = m := by
    simp [List.length_append]
  simp [toyPrims, htake, hdrop]

/-- The toy AEAD rejects ciphertexts under any key other than the one that
produced them. -/
theorem toyPrims_auth (k k' n a a' m ct : List Nat) (hk : k ≠ k')
    (h : toyPrims.aesGcmEnc k n a m = .ok ct) :
    toyPrims.aesGcmDec k' n a' ct = .error () := by
  have hct : ct = k.length :: n.length :: (k ++ n ++ m) := by
    simpa [toyPrims] using h.symm
  subst hct
  by_cases hlen : k.length = k'.length
  · have htake : List.take (k'.length + n.length) (k ++ (n ++ m)) = k ++ n := by
      rw [← hlen]
      simpa [List.length_append] using @List.take_left Nat (k ++ n) m
    have hne : ¬(k ++ n = k' ++ n) := fun hcon => hk (List.append_inj_left hcon hlen)
    simp [toyPrims, hlen, htake, hne]
  · simp [toyPrims]
    intro hcon
    exact absurd hcon hlen

/-- A successful `encrypt` bumps `enc_sequence` by one (mod `2 ^ 64`) and
changes nothing else; the ciphertext is exactly the AEAD output for the
nonce built from the old `enc_sequence` with empty associated data. -/
theorem encrypt_ok_iff (P : CryptoPrims) (c : Aes128GcmCipher) (d ct : List Nat) :
    (Aes128GcmCipher.encrypt P c d).1 = .ok ct ↔
      P.aesGcmEnc c.key (nonceOf c.enc_sequence) [] d = .ok ct := by
  unfold Aes128GcmCipher.encrypt
  cases h : P.aesGcmEnc c.key (nonceOf c.enc_sequence) [] d <;> simp

/-- State update of `encrypt` on success. -/
theorem encrypt_ok_state (P : CryptoPrims) (c : Aes128GcmCipher) (d ct : List Nat)
    (h : (Aes128GcmCipher.encrypt P c d).1 = .ok ct) :
    (Aes128GcmCipher.encrypt P c d).2 =
      { c with enc_sequence := (c.enc_sequence + 1) % u64Mod } := by
  rw [encrypt_ok_iff] at h
  simp [Aes128GcmCipher.encrypt, h]

/-- A failed `encrypt` reports `EncryptionFailed` and leaves the cipher
state unchanged. -/
theorem encrypt_err_state (P : CryptoPrims) (c : Aes128GcmCipher) (d : List Nat)
    (e : Aes128GcmError) (h : (Aes128GcmCipher.encrypt P c d).1 = .error e) :
    e = .EncryptionFailed ∧ (Aes128GcmCipher.encrypt P c d).2 = c := by
  unfold Aes128GcmCipher.encrypt at *
  cases hE : P.aesGcmEnc c.key (nonceOf c.enc_sequence) [] d <;> simp [hE] at h ⊢
  exact h.symm

/-- `encrypt` never touches the key or `dec_sequence`. -/
theorem encrypt_frame (P : CryptoPrims) (c : Aes128GcmCipher) (d : List Nat) :
    (Aes128GcmCipher.encrypt P c d).2.key = c.key ∧
      (Aes128GcmCipher.encrypt P c d).2.dec_sequence = c.dec_sequence := by
  unfold Aes128GcmCipher.encrypt
  cases hE : P.aesGcmEnc c.key (nonceOf c.enc_sequence) [] d <;> simp

/-- A successful `decrypt` is exactly a successful AEAD verification for
the nonce built from the old `dec_sequence` with empty associated data. -/
theorem decrypt_ok_iff (P : CryptoPrims) (c : Aes128GcmCipher) (d pt : List Nat) :
    (Aes128GcmCipher.decrypt P c d).1 = .ok pt ↔
      P.aesGcmDec c.key (nonceOf c.dec_sequence) [] d = .ok pt := by
  unfold Aes128GcmCipher.decrypt
  cases h : P.aesGcmDec c.key (nonceOf c.dec_sequence) [] d <;> simp

/-- State update of `decrypt` on success. -/
theorem decrypt_ok_state (P : CryptoPrims) (c : Aes128GcmCipher) (d pt : List Nat)
    (h : (Aes128GcmCipher.decrypt P c d).1 = .ok pt) :
    (Aes128GcmCipher.decrypt P c d).2 =
      { c with dec_sequence := (c.dec_sequence + 1) % u64Mod } := by
  rw [decrypt_ok_iff] at h
  simp [Aes128GcmCipher.decrypt, h]

/-- A failed `decrypt` reports `DecryptionFailed` and leaves the cipher
state unchanged. -/
theorem decrypt_err_state (P : CryptoPrims) (c : Aes128GcmCipher) (d : List Nat)
    (e : Aes128GcmError) (h : (Aes128GcmCipher.decrypt P c d).1 = .error e) :
    e = .DecryptionFailed ∧ (Aes128GcmCipher.decrypt P c d).2 = c := by
  unfold Aes128GcmCipher.decrypt at *
  cases hE : P.aesGcmDec c.key (nonceOf c.dec_sequence) [] d <;> simp [hE] at h ⊢
  exact h.symm

/-- `decrypt` never touches the key or `enc_sequence`. -/
theorem decrypt_frame (P : CryptoPrims) (c : Aes128GcmCipher) (d : List Nat) :
    (Aes128GcmCipher.decrypt P c d).2.key = c.key ∧
      (Aes128GcmCipher.decrypt P c d).2.enc_sequence = c.enc_sequence := by
  unfold Aes128GcmCipher.decrypt
  cases hE : P.aesGcmDec c.key (nonceOf c.dec_sequence) [] d <;> simp

/-- The nonce is always 12 bytes long. -/
theorem nonceOf_length (s : Nat) : (nonceOf s).length = 12 := by
  simp [nonceOf, le64Bytes]

/-- Bytes 0-7 of the nonce are the little-endian bytes of the counter. -/
theorem nonceOf_low (s i : Nat) (h : i < 8) :
    (nonceOf s)[i]? = some (s / 256 ^ i % 256) := by
  interval_cases i <;> simp [nonceOf, le64Bytes]

/-- Bytes 8-11 of the nonce are zero. -/
theorem nonceOf_high (s i : Nat) (h8 : 8 ≤ i) (h12 : i < 12) :
    (nonceOf s)[i]? = some 0 := by
  interval_cases i <;> simp [nonceOf, le64Bytes]

/-- Distinct counter values below `2 ^ 64` give distinct nonces. -/
theorem nonceOf_injOn (i j : Nat) (hi : i < u64Mod) (hj : j < u64Mod) (hne : i ≠ j) :
    nonceOf i ≠ nonceOf j := by
  intro hcon
  apply hne
  simp [nonceOf, le64Bytes] at hcon
  simp [u64Mod] at hi hj
  omega

/-- Prepending the nonce of `x` to the nonces of `x + 1, ..., x + L` gives
the nonces of `x, ..., x + L`. -/
theorem cons_nonce_range (x L : Nat) :
    (nonceOf x, ([] : List Nat)) ::
        (List.range L).map (fun n => (nonceOf (x + 1 + n), ([] : List Nat))) =
      (List.range (L + 1)).map (fun n => (nonceOf (x + n), ([] : List Nat))) := by
  rw [List.range_succ_eq_map, List.map_cons, List.map_map]
  refine congrArg₂ List.cons ?_ ?_
  · simp
  · apply List.map_congr_left
    intro a _
    simp only [Function.comp_apply, Nat.succ_eq_add_one]
    have harith : x + 1 + a = x + (a + 1) := by omega
    rw [harith]

/-- Trace invariant behind the nonce claim: starting from any cipher state,
the successful encrypts of a run use the nonces of consecutive counter
values (with empty associated data), and the final `enc_sequence` is the
starting value plus the number of successful encrypts, provided the
counter does not overflow within the run. -/
theorem cipherRun_enc_trace (P : CryptoPrims) (ops : List CipherOp) :
    ∀ c : Aes128GcmCipher,
    c.enc_sequence + ((cipherRun P c ops).2).length < u64Mod →
    (cipherRun P c ops).2 =
      (List.range ((cipherRun P c ops).2).length).map
        (fun n => (nonceOf (c.enc_sequence + n), ([] : List Nat))) ∧
    ((cipherRun P c ops).1).enc_sequence =
      c.enc_sequence + ((cipherRun P c ops).2).length := by
  induction ops with
  | nil =>
      intro c h
      simp [cipherRun]
  | cons op ops ih =>
      intro c h
      cases op with
      | dec d =>
          have hfr := (decrypt_frame P c d).2
          have hrun : cipherRun P c (CipherOp.dec d :: ops) =
              cipherRun P (Aes128GcmCipher.decrypt P c d).2 ops := by
            simp [cipherRun]
          rw [hrun] at h ⊢
          rw [← hfr] at h ⊢
          exact ih _ h
      | enc d =>
          cases hE : P.aesGcmEnc c.key (nonceOf c.enc_sequence) [] d with
          | error e =>
              have hrun : cipherRun P c (CipherOp.enc d :: ops) = cipherRun P c ops := by
                simp [cipherRun, Aes128GcmCipher.encrypt, hE]
              rw [hrun] at h ⊢
              exact ih c h
          | ok ct =>
              have hrun : cipherRun P c (CipherOp.enc d :: ops) =
                  ((cipherRun P { c with enc_sequence := (c.enc_sequence + 1) % u64Mod } ops).1,
                   (nonceOf c.enc_sequence, ([] : List Nat)) ::
                     (cipherRun P { c with enc_sequence := (c.enc_sequence + 1) % u64Mod } ops).2) := by
                simp [cipherRun, Aes128GcmCipher.encrypt, hE]
              rw [hrun] at h ⊢
              simp only [List.length_cons] at h ⊢
              have hlt : c.enc_sequence + 1 < u64Mod := by omega
              have hmod : (c.enc_sequence + 1) % u64Mod = c.enc_sequence + 1 :=
                Nat.mod_eq_of_lt hlt
              rw [hmod] at h ⊢
              have ihs := ih { c with enc_sequence := c.enc_sequence + 1 }
                (by show c.enc_sequence + 1 + _ < u64Mod; omega)
              constructor
              · rw [ihs.1]
                simp only [List.length_map, List.length_range]
                exact cons_nonce_range c.enc_sequence _
              · rw [ihs.2]
                show c.enc_sequence + 1 + _ = _
                omega

/-- `init_cipher` on a context whose exchange state was already taken
reports `AlreadyInitialized` and changes nothing. -/
theorem mut_init_cipher_taken (P : CryptoPrims) (ctx : MutPairingAuthCtx)
    (m : List Nat) (h : ctx.state = none) :
    (MutPairingAuthCtx.init_cipher P ctx m).1 = .error .AlreadyInitialized ∧
      (MutPairingAuthCtx.init_cipher P ctx m).2 = ctx := by
  simp [MutPairingAuthCtx.init_cipher, h]

/-- After any `init_cipher` call on a context that still holds exchange
state, the state slot is `none`, whatever the outcome. -/
theorem mut_init_cipher_clears_state (P : CryptoPrims) (ctx : MutPairingAuthCtx)
    (m st : List Nat) (h : ctx.state = some st) :
    (MutPairingAuthCtx.init_cipher P ctx m).2.state = none := by
  unfold MutPairingAuthCtx.init_cipher
  rw [h]
  cases hf : P.finish st m with
  | error e => simp [hf]
  | ok km =>
      cases hn : Aes128GcmCipher.new P km with
      | error e => simp [hf, hn]
      | ok c => simp [hf, hn]

/-- A failed `init_cipher` call never installs a cipher. -/
theorem mut_init_cipher_fail_no_cipher (P : CryptoPrims) (ctx : MutPairingAuthCtx)
    (m : List Nat) (e : MutPairingAuthError)
    (h : (MutPairingAuthCtx.init_cipher P ctx m).1 = .error e) :
    (MutPairingAuthCtx.init_cipher P ctx m).2.cipher = ctx.cipher := by
  unfold MutPairingAuthCtx.init_cipher at *
  cases hs : ctx.state with
  | none => simp
  | some st =>
      cases hf : P.finish st m with
      | error er => simp [hf]
      | ok km =>
          cases hn : Aes128GcmCipher.new P km with
          | error er => simp [hf, hn]
          | ok c => simp [hs, hf, hn] at h

/-- `encrypt` before a cipher exists reports `CipherNotInitialized` and
changes nothing. -/
theorem mut_encrypt_no_cipher (P : CryptoPrims) (ctx : MutPairingAuthCtx)
    (d : List Nat) (h : ctx.cipher = none) :
    (MutPairingAuthCtx.encrypt P ctx d).1 = .error .CipherNotInitialized ∧
      (MutPairingAuthCtx.encrypt P ctx d).2 = ctx := by
  simp [MutPairingAuthCtx.encrypt, h]

/-- `decrypt` before a cipher exists reports `CipherNotInitialized` and
changes nothing. -/
theorem mut_decrypt_no_cipher (P : CryptoPrims) (ctx : MutPairingAuthCtx)
    (d : List Nat) (h : ctx.cipher = none) :
    (MutPairingAuthCtx.decrypt P ctx d).1 = .error .CipherNotInitialized ∧
      (MutPairingAuthCtx.decrypt P ctx d).2 = ctx := by
  simp [MutPairingAuthCtx.decrypt, h]

/-- A mutable context whose state and cipher slots are both empty stays
that way under every sequence of operations. -/
theorem ctxRun_dead (P : CryptoPrims) (ops : List CtxOp) :
    ∀ ctx : MutPairingAuthCtx, ctx.state = none → ctx.cipher = none →
    (ctxRun P ctx ops) = ctx := by
  induction ops with
  | nil =>
      intro ctx h1 h2
      simp [ctxRun]
  | cons op ops ih =>
      intro ctx h1 h2
      cases op with
      | ini m =>
          have hstep := (mut_init_cipher_taken P ctx m h1).2
          simp only [ctxRun, hstep]
          exact ih ctx h1 h2
      | enc d =>
          have hstep := (mut_encrypt_no_cipher P ctx d h2).2
          simp only [ctxRun, hstep]
          exact ih ctx h1 h2
      | dec d =>
          have hstep := (mut_decrypt_no_cipher P ctx d h2).2
          simp only [ctxRun, hstep]
          exact ih ctx h1 h2

/-- Lockstep invariant behind the round-trip claim: if the two ready
contexts hold the same derived key, the client's encryption counter equals
the server's decryption counter and vice versa, and the AEAD is total and
satisfies the round-trip law at this key, then every sequence of round
trips echoes all messages intact. -/
theorem echoRounds_ok (P : CryptoPrims) (dk : List Nat)
    (hTotal : ∀ n a m, ∃ ct, P.aesGcmEnc dk n a m = .ok ct)
    (hRound : ∀ n a m ct, P.aesGcmEnc dk n a m = .ok ct → P.aesGcmDec dk n a ct = .ok m)
    (ms : List (List Nat × List Nat)) :
    ∀ c1 c2 : Aes128GcmCipher, c1.key = dk → c2.key = dk →
      c1.enc_sequence = c2.dec_sequence → c1.dec_sequence = c2.enc_sequence →
      (echoRounds P ⟨c1⟩ ⟨c2⟩ ms).1 = .ok ms := by
  induction ms with
  | nil =>
      intro c1 c2 _ _ _ _
      simp [echoRounds]
  | cons p ms ih =>
      obtain ⟨m1, m2⟩ := p
      intro c1 c2 hk1 hk2 hed hde
      obtain ⟨ct1, hct1⟩ := hTotal (nonceOf c1.enc_sequence) [] m1
      have hEnc1 : P.aesGcmEnc c1.key (nonceOf c1.enc_sequence) [] m1 = .ok ct1 := by
        rw [hk1]; exact hct1
      have hDec1 : P.aesGcmDec c2.key (nonceOf c2.dec_sequence) [] ct1 = .ok m1 := by
        rw [hk2, ← hed]; exact hRound _ _ _ _ hct1
      obtain ⟨ct2, hct2⟩ := hTotal (nonceOf c2.enc_sequence) [] m2
      have hEnc2 : P.aesGcmEnc c2.key (nonceOf c2.enc_sequence) [] m2 = .ok ct2 := by
        rw [hk2]; exact hct2
      have hDec2 : P.aesGcmDec c1.key (nonceOf c1.dec_sequence) [] ct2 = .ok m2 := by
        rw [hk1, hde]; exact hRound _ _ _ _ hct2
      have ihs := ih
        { c1 with enc_sequence := (c1.enc_sequence + 1) % u64Mod,
                  dec_sequence := (c1.dec_sequence + 1) % u64Mod }
        { c2 with dec_sequence := (c2.dec_sequence + 1) % u64Mod,
                  enc_sequence := (c2.enc_sequence + 1) % u64Mod }
        (by simpa using hk1) (by simpa using hk2)
        (by simp [hed]) (by simp [hde])
      simp [echoRounds, PairingAuthCtx.encrypt, PairingAuthCtx.decrypt,
            Aes128GcmCipher.encrypt, Aes128GcmCipher.decrypt, Except.mapError,
            Except.map, hEnc1, hDec1, hEnc2, hDec2, ihs]

/-- Characterization of a successful `Aes128GcmCipher::new`: the key
material was non-empty, the key is the HKDF output for the fixed info
string and length, and both counters start at 0. -/
theorem new_ok_shape (P : CryptoPrims) (km : List Nat) (c : Aes128GcmCipher)
    (h : Aes128GcmCipher.new P km = .ok c) :
    km ≠ [] ∧ P.hkdfExpand none km INFO HKDF_KEY_LENGTH = .ok c.key ∧
      c.enc_sequence = 0 ∧ c.dec_sequence = 0 := by
  unfold Aes128GcmCipher.new at h
  by_cases hkm : km = []
  · simp [hkm] at h
  · rw [if_neg hkm] at h
    cases hh : P.hkdfExpand none km INFO HKDF_KEY_LENGTH with
    | error e => simp [hh] at h
    | ok okm =>
        simp [hh] at h
        subst h
        exact ⟨hkm, rfl, rfl, rfl⟩

/-- Helper step used by `new_ok_shape`; kept separate for reuse. -/
theorem new_ok_counters (P : CryptoPrims) (km : List Nat) (c : Aes128GcmCipher)
    (h : Aes128GcmCipher.new P km = .ok c) :
    c.enc_sequence = 0 ∧ c.dec_sequence = 0 :=
  ⟨(new_ok_shape P km c h).2.2.1, (new_ok_shape P km c h).2.2.2⟩

/-- Characterization of a successful builder `init_cipher`: the SPAKE2
finish succeeded and the cipher was built from its key material. -/
theorem builder_init_ok (P : CryptoPrims) (b : PairingAuthCtxBuilder)
    (their_msg : List Nat) (cc : PairingAuthCtx)
    (h : PairingAuthCtxBuilder.init_cipher P b their_msg = .ok cc) :
    ∃ km, P.finish b.state their_msg = .ok km ∧
      Aes128GcmCipher.new P km = .ok cc.cipher := by
  unfold PairingAuthCtxBuilder.init_cipher at h
  cases hf : P.finish b.state their_msg with
  | error e => simp [hf] at h
  | ok km =>
      rw [hf] at h
      refine ⟨km, rfl, ?_⟩
      cases hn : Aes128GcmCipher.new P km with
      | error e => simp [hn] at h
      | ok c =>
          simp [hn] at h
          rw [← h]

/-- `Except.mapError` preserves and reflects success. -/
theorem mapError_ok_iff {ε ε' α : Type} (f : ε → ε') (x : Except ε α) (a : α) :
    Except.mapError f x = .ok a ↔ x = .ok a := by
  cases x <;> simp [Except.mapError]

/-- Characterization of a successful mutable-context `new`: non-empty
password, exchange state present, no cipher yet. -/
theorem mut_new_ok_shape (P : CryptoPrims) (pswd : List Nat) (role : Role)
    (ctx : MutPairingAuthCtx) (h : MutPairingAuthCtx.new P pswd role = .ok ctx) :
    pswd ≠ [] ∧ ctx.cipher = none ∧ ∃ st, ctx.state = some st := by
  unfold MutPairingAuthCtx.new at h
  by_cases hp : pswd = []
  · simp [hp] at h
  · rw [if_neg hp] at h
    simp at h
    subst h
    exact ⟨hp, rfl, _, rfl⟩

/-- C1: for every cipher session, the N-th successful encrypt (counting
from 0) passes the AEAD a 12-byte nonce whose bytes 0-7 are N in
little-endian order and whose bytes 8-11 are zero, with no associated
data; `enc_sequence` advances by exactly 1 on every successful encrypt and
never otherwise (failed encrypts and all decrypts leave it unchanged), so
no two successful encrypts of one session reuse a nonce (within the 64-bit
counter range). -/
theorem claim_C1_nonce_discipline (P : CryptoPrims) (km : List Nat)
    (c0 : Aes128GcmCipher) (hnew : Aes128GcmCipher.new P km = .ok c0)
    (ops : List CipherOp)
    (hbound : ((cipherRun P c0 ops).2).length < u64Mod) :
    (cipherRun P c0 ops).2 =
      (List.range ((cipherRun P c0 ops).2).length).map
        (fun n => (nonceOf n, ([] : List Nat))) ∧
    ((cipherRun P c0 ops).1).enc_sequence = ((cipherRun P c0 ops).2).length ∧
    (∀ c d ct, (Aes128GcmCipher.encrypt P c d).1 = .ok ct →
      (Aes128GcmCipher.encrypt P c d).2.enc_sequence = (c.enc_sequence + 1) % u64Mod) ∧
    (∀ c d e, (Aes128GcmCipher.encrypt P c d).1 = .error e →
      (Aes128GcmCipher.encrypt P c d).2 = c) ∧
    (∀ c d, (Aes128GcmCipher.decrypt P c d).2.enc_sequence = c.enc_sequence) ∧
    (∀ s, (nonceOf s).length = 12 ∧
      (∀ i, i < 8 → (nonceOf s)[i]? = some (s / 256 ^ i % 256)) ∧
      (∀ i, 8 ≤ i → i < 12 → (nonceOf s)[i]? = some 0)) ∧
    (∀ i j, i < u64Mod → j < u64Mod → i ≠ j → nonceOf i ≠ nonceOf j) := by
  have h0 := (new_ok_shape P km c0 hnew).2.2.1
  have hb : c0.enc_sequence + ((cipherRun P c0 ops).2).length < u64Mod := by
    rw [h0]
    simpa using hbound
  have ht := cipherRun_enc_trace P ops c0 hb
  refine ⟨?_, ?_, ?_, ?_, ?_, ?_, ?_⟩
  · have t1 := ht.1
    simp only [h0, Nat.zero_add] at t1
    exact t1
  · have t2 := ht.2
    simp only [h0, Nat.zero_add] at t2
    exact t2
  · intro c d ct hok
    rw [encrypt_ok_state P c d ct hok]
  · intro c d e herr
    exact (encrypt_err_state P c d e herr).2
  · intro c d
    exact (decrypt_frame P c d).2
  · intro s
    exact ⟨nonceOf_length s, fun i hi => nonceOf_low s i hi,
      fun i h8 h12 => nonceOf_high s i h8 h12⟩
  · exact nonceOf_injOn

/-- Witness for C1 at a concrete run: three operations, two successful
encrypts, whose recorded nonces are those of counters 0 and 1. -/
theorem claim_C1_nonce_discipline_witness :
    Aes128GcmCipher.new toyPrims [5] =
      .ok { key := [5], enc_sequence := 0, dec_sequence := 0 } ∧
    ((cipherRun toyPrims { key := [5], enc_sequence := 0, dec_sequence := 0 }
        [CipherOp.enc [1], CipherOp.dec [9], CipherOp.enc [2, 3]]).2).length < u64Mod ∧
    (cipherRun toyPrims { key := [5], enc_sequence := 0, dec_sequence := 0 }
        [CipherOp.enc [1], CipherOp.dec [9], CipherOp.enc [2, 3]]).2 =
      (List.range ((cipherRun toyPrims { key := [5], enc_sequence := 0, dec_sequence := 0 }
        [CipherOp.enc [1], CipherOp.dec [9], CipherOp.enc [2, 3]]).2).length).map
        (fun n => (nonceOf n, ([] : List Nat))) :=
  ⟨rfl, by decide,
    (claim_C1_nonce_discipline toyPrims [5]
      { key := [5], enc_sequence := 0, dec_sequence := 0 } rfl
      [CipherOp.enc [1], CipherOp.dec [9], CipherOp.enc [2, 3]] (by decide)).1⟩

/-- C3: a failed `decrypt` returns `DecryptionFailed` and leaves the
cipher unchanged, so a well-formed ciphertext for the original sequence
position still decrypts afterwards; a successful `decrypt` advances
`dec_sequence` by exactly 1. -/
theorem claim_C3_decrypt_failure (P : CryptoPrims) (c : Aes128GcmCipher) (d : List Nat) :
    (∀ e, (Aes128GcmCipher.decrypt P c d).1 = .error e →
      e = .DecryptionFailed ∧ (Aes128GcmCipher.decrypt P c d).2 = c ∧
      ∀ d' pt, P.aesGcmDec c.key (nonceOf c.dec_sequence) [] d' = .ok pt →
        (Aes128GcmCipher.decrypt P ((Aes128GcmCipher.decrypt P c d).2) d').1 = .ok pt) ∧
    (∀ pt, (Aes128GcmCipher.decrypt P c d).1 = .ok pt →
      P.aesGcmDec c.key (nonceOf c.dec_sequence) [] d = .ok pt ∧
      (Aes128GcmCipher.decrypt P c d).2 =
        { c with dec_sequence := (c.dec_sequence + 1) % u64Mod }) := by
  constructor
  · intro e he
    obtain ⟨he1, he2⟩ := decrypt_err_state P c d e he
    refine ⟨he1, he2, ?_⟩
    intro d' pt hd
    rw [he2, decrypt_ok_iff]
    exact hd
  · intro pt hpt
    exact ⟨(decrypt_ok_iff P c d pt).mp hpt, decrypt_ok_state P c d pt hpt⟩

/-- Witness for C3: decrypting the empty ciphertext fails, leaves the
state unchanged, and a well-formed ciphertext for position 0 still
decrypts. -/
theorem claim_C3_decrypt_failure_witness :
    (Aes128GcmError.DecryptionFailed = Aes128GcmError.DecryptionFailed ∧
      (Aes128GcmCipher.decrypt toyPrims { key := [1], enc_sequence := 0, dec_sequence := 0 } []).2 =
        { key := [1], enc_sequence := 0, dec_sequence := 0 } ∧
      ∀ d' pt, toyPrims.aesGcmDec [1] (nonceOf 0) [] d' = .ok pt →
        (Aes128GcmCipher.decrypt toyPrims
          ((Aes128GcmCipher.decrypt toyPrims
            { key := [1], enc_sequence := 0, dec_sequence := 0 } []).2) d').1 = .ok pt) :=
  (claim_C3_decrypt_failure toyPrims { key := [1], enc_sequence := 0, dec_sequence := 0 } []).1
    Aes128GcmError.DecryptionFailed rfl

/-- C7: constructing a cipher from empty key material fails with
`KeyMaterialEmpty` — for every possible behaviour of the derivation
primitive, so the emptiness check precedes derivation — and every
successfully constructed cipher starts with both counters at 0. -/
theorem claim_C7_key_material (P : CryptoPrims) :
    Aes128GcmCipher.new P [] = .error .KeyMaterialEmpty ∧
    ∀ km c, Aes128GcmCipher.new P km = .ok c →
      km ≠ [] ∧ c.enc_sequence = 0 ∧ c.dec_sequence = 0 := by
  constructor
  · simp [Aes128GcmCipher.new]
  · intro km c h
    obtain ⟨hkm, _, h1, h2⟩ := new_ok_shape P km c h
    exact ⟨hkm, h1, h2⟩

/-- Witness for C7 at concrete key material. -/
theorem claim_C7_key_material_witness :
    Aes128GcmCipher.new toyPrims [] = .error .KeyMaterialEmpty ∧
    ([9] ≠ ([] : List Nat) ∧
      ({ key := [9], enc_sequence := 0, dec_sequence := 0 } : Aes128GcmCipher).enc_sequence = 0 ∧
      ({ key := [9], enc_sequence := 0, dec_sequence := 0 } : Aes128GcmCipher).dec_sequence = 0) :=
  ⟨(claim_C7_key_material toyPrims).1,
    (claim_C7_key_material toyPrims).2 [9]
      { key := [9], enc_sequence := 0, dec_sequence := 0 } rfl⟩

/-- C9: the two counters are independent — `encrypt` never changes
`dec_sequence` or the key, and `decrypt` never changes `enc_sequence` or
the key, whether the call succeeds or fails. -/
theorem claim_C9_counter_independence (P : CryptoPrims) (c : Aes128GcmCipher) (d : List Nat) :
    ((Aes128GcmCipher.encrypt P c d).2.dec_sequence = c.dec_sequence ∧
      (Aes128GcmCipher.encrypt P c d).2.key = c.key) ∧
    ((Aes128GcmCipher.decrypt P c d).2.enc_sequence = c.enc_sequence ∧
      (Aes128GcmCipher.decrypt P c d).2.key = c.key) :=
  ⟨⟨(encrypt_frame P c d).2, (encrypt_frame P c d).1⟩,
   ⟨(decrypt_frame P c d).2, (decrypt_frame P c d).1⟩⟩

/-- C2: a client and a server built with the same non-empty password and
opposite roles, each finishing with the other's outbound message, obtain
ready contexts on which every sequence of round trips echoes all messages
(in both directions), given the cryptographic soundness assumptions on the
primitives: crossed SPAKE2 finishes agree on non-empty key material, HKDF
succeeds, and the AEAD is total and satisfies the round-trip law at the
derived key. -/
theorem claim_C2_roundtrip (P : CryptoPrims) (pswd : List Nat) (hpw : pswd ≠ [])
    (bc bs : PairingAuthCtxBuilder)
    (hbc : PairingAuthCtxBuilder.new P pswd Role.Client = .ok bc)
    (hbs : PairingAuthCtxBuilder.new P pswd Role.Server = .ok bs)
    (km dk : List Nat)
    (hfc : P.finish bc.state (PairingAuthCtxBuilder.msg bs) = .ok km)
    (hfs : P.finish bs.state (PairingAuthCtxBuilder.msg bc) = .ok km)
    (hkm : km ≠ [])
    (hdk : P.hkdfExpand none km INFO HKDF_KEY_LENGTH = .ok dk)
    (hTotal : ∀ n a m, ∃ ct, P.aesGcmEnc dk n a m = .ok ct)
    (hRound : ∀ n a m ct, P.aesGcmEnc dk n a m = .ok ct → P.aesGcmDec dk n a ct = .ok m) :
    ∃ cc cs : PairingAuthCtx,
      PairingAuthCtxBuilder.init_cipher P bc (PairingAuthCtxBuilder.msg bs) = .ok cc ∧
      PairingAuthCtxBuilder.init_cipher P bs (PairingAuthCtxBuilder.msg bc) = .ok cs ∧
      ∀ ms, (echoRounds P cc cs ms).1 = .ok ms := by
  refine ⟨⟨⟨dk, 0, 0⟩⟩, ⟨⟨dk, 0, 0⟩⟩, ?_, ?_, ?_⟩
  · simp [PairingAuthCtxBuilder.init_cipher, hfc, Aes128GcmCipher.new, if_neg hkm, hdk]
  · simp [PairingAuthCtxBuilder.init_cipher, hfs, Aes128GcmCipher.new, if_neg hkm, hdk]
  · intro ms
    exact echoRounds_ok P dk hTotal hRound ms ⟨dk, 0, 0⟩ ⟨dk, 0, 0⟩ rfl rfl rfl rfl

/-- Witness for C2 with password `[7]` under the toy primitives. -/
theorem claim_C2_roundtrip_witness :
    ∃ cc cs : PairingAuthCtx,
      PairingAuthCtxBuilder.init_cipher toyPrims { state := [0, 7], our_msg := [0] }
        (PairingAuthCtxBuilder.msg { state := [1, 7], our_msg := [1] }) = .ok cc ∧
      PairingAuthCtxBuilder.init_cipher toyPrims { state := [1, 7], our_msg := [1] }
        (PairingAuthCtxBuilder.msg { state := [0, 7], our_msg := [0] }) = .ok cs ∧
      ∀ ms, (echoRounds toyPrims cc cs ms).1 = .ok ms :=
  claim_C2_roundtrip toyPrims [7] (by decide)
    { state := [0, 7], our_msg := [0] } { state := [1, 7], our_msg := [1] }
    rfl rfl [7] [7] rfl rfl (by decide) rfl
    (fun n a m => ⟨_, toyPrims_enc_total [7] n a m⟩)
    (fun n a m ct h => toyPrims_roundtrip [7] n a m ct h)

/-- C4: when the two sides finished with different passwords and therefore
hold different derived keys, and the AEAD rejects ciphertexts under the
wrong key, a message encrypted by one ready context is rejected by the
other with `DecryptionFailed`, in both directions. -/
theorem claim_C4_password_mismatch (P : CryptoPrims) (p1 p2 : List Nat)
    (hp1 : p1 ≠ []) (hp2 : p2 ≠ []) (hpp : p1 ≠ p2)
    (bc bs : PairingAuthCtxBuilder)
    (hbc : PairingAuthCtxBuilder.new P p1 Role.Client = .ok bc)
    (hbs : PairingAuthCtxBuilder.new P p2 Role.Server = .ok bs)
    (cc cs : PairingAuthCtx)
    (hcc : PairingAuthCtxBuilder.init_cipher P bc (PairingAuthCtxBuilder.msg bs) = .ok cc)
    (hcs : PairingAuthCtxBuilder.init_cipher P bs (PairingAuthCtxBuilder.msg bc) = .ok cs)
    (hkeys : cc.cipher.key ≠ cs.cipher.key)
    (hauth1 : ∀ n a m ct, P.aesGcmEnc cc.cipher.key n a m = .ok ct →
        P.aesGcmDec cs.cipher.key n a ct = .error ())
    (hauth2 : ∀ n a m ct, P.aesGcmEnc cs.cipher.key n a m = .ok ct →
        P.aesGcmDec cc.cipher.key n a ct = .error ()) :
    (∀ m ct, (PairingAuthCtx.encrypt P cc m).1 = .ok ct →
      (PairingAuthCtx.decrypt P cs ct).1 = .error (.CipherError .DecryptionFailed)) ∧
    (∀ m ct, (PairingAuthCtx.encrypt P cs m).1 = .ok ct →
      (PairingAuthCtx.decrypt P cc ct).1 = .error (.CipherError .DecryptionFailed)) := by
  obtain ⟨km1, hf1, hn1⟩ := builder_init_ok P bc _ cc hcc
  obtain ⟨km2, hf2, hn2⟩ := builder_init_ok P bs _ cs hcs
  have s1 := new_ok_shape P km1 cc.cipher hn1
  have s2 := new_ok_shape P km2 cs.cipher hn2
  constructor
  · intro m ct h
    have h' : (Aes128GcmCipher.encrypt P cc.cipher m).1 = .ok ct := by
      simp only [PairingAuthCtx.encrypt] at h
      exact (mapError_ok_iff _ _ _).mp h
    have hE := (encrypt_ok_iff P cc.cipher m ct).mp h'
    have hD := hauth1 _ _ _ _ hE
    have hD' : P.aesGcmDec cs.cipher.key (nonceOf cs.cipher.dec_sequence) [] ct =
        .error () := by
      rw [s2.2.2.2]
      rw [s1.2.2.1] at hD
      exact hD
    simp [PairingAuthCtx.decrypt, Aes128GcmCipher.decrypt, hD', Except.mapError]
  · intro m ct h
    have h' : (Aes128GcmCipher.encrypt P cs.cipher m).1 = .ok ct := by
      simp only [PairingAuthCtx.encrypt] at h
      exact (mapError_ok_iff _ _ _).mp h
    have hE := (encrypt_ok_iff P cs.cipher m ct).mp h'
    have hD := hauth2 _ _ _ _ hE
    have hD' : P.aesGcmDec cc.cipher.key (nonceOf cc.cipher.dec_sequence) [] ct =
        .error () := by
      rw [s1.2.2.2]
      rw [s2.2.2.1] at hD
      exact hD
    simp [PairingAuthCtx.decrypt, Aes128GcmCipher.decrypt, hD', Except.mapError]

/-- Witness for C4 with passwords `[1]` and `[2]` under the toy
primitives. -/
theorem claim_C4_password_mismatch_witness :
    (∀ m ct, (PairingAuthCtx.encrypt toyPrims ⟨⟨[1], 0, 0⟩⟩ m).1 = .ok ct →
      (PairingAuthCtx.decrypt toyPrims ⟨⟨[2], 0, 0⟩⟩ ct).1 =
        .error (.CipherError .DecryptionFailed)) ∧
    (∀ m ct, (PairingAuthCtx.encrypt toyPrims ⟨⟨[2], 0, 0⟩⟩ m).1 = .ok ct →
      (PairingAuthCtx.decrypt toyPrims ⟨⟨[1], 0, 0⟩⟩ ct).1 =
        .error (.CipherError .DecryptionFailed)) :=
  claim_C4_password_mismatch toyPrims [1] [2] (by decide) (by decide) (by decide)
    { state := [0, 1], our_msg := [0] } { state := [1, 2], our_msg := [1] }
    rfl rfl ⟨⟨[1], 0, 0⟩⟩ ⟨⟨[2], 0, 0⟩⟩ rfl rfl (by decide)
    (fun n a m ct h => toyPrims_auth [1] [2] n a a m ct (by decide) h)
    (fun n a m ct h => toyPrims_auth [2] [1] n a a m ct (by decide) h)

/-- C5: in the mutable-context implementation, both misuses are reported
errors: a freshly constructed context (no cipher yet) rejects
`encrypt`/`decrypt` with `CipherNotInitialized`, and a second
`init_cipher` call — whatever the outcome of the first — is rejected with
`AlreadyInitialized`. -/
theorem claim_C5_misuse_reported (P : CryptoPrims) (pswd : List Nat) (role : Role)
    (ctx : MutPairingAuthCtx) (hnew : MutPairingAuthCtx.new P pswd role = .ok ctx) :
    ctx.cipher = none ∧ (∃ st, ctx.state = some st) ∧
    (∀ d, (MutPairingAuthCtx.encrypt P ctx d).1 = .error .CipherNotInitialized) ∧
    (∀ d, (MutPairingAuthCtx.decrypt P ctx d).1 = .error .CipherNotInitialized) ∧
    (∀ m m2, (MutPairingAuthCtx.init_cipher P
      (MutPairingAuthCtx.init_cipher P ctx m).2 m2).1 = .error .AlreadyInitialized) := by
  obtain ⟨hp, hcip, st, hst⟩ := mut_new_ok_shape P pswd role ctx hnew
  refine ⟨hcip, ⟨st, hst⟩, ?_, ?_, ?_⟩
  · intro d
    exact (mut_encrypt_no_cipher P ctx d hcip).1
  · intro d
    exact (mut_decrypt_no_cipher P ctx d hcip).1
  · intro m m2
    have h1 := mut_init_cipher_clears_state P ctx m st hst
    exact (mut_init_cipher_taken P _ m2 h1).1

/-- Witness for C5 at password `[3]`, role `Client`. -/
theorem claim_C5_misuse_reported_witness :
    ({ state := some [0, 3], our_msg := [0], cipher := none } : MutPairingAuthCtx).cipher = none ∧
    (∃ st, ({ state := some [0, 3], our_msg := [0], cipher := none } :
      MutPairingAuthCtx).state = some st) ∧
    (∀ d, (MutPairingAuthCtx.encrypt toyPrims
      { state := some [0, 3], our_msg := [0], cipher := none } d).1 =
        .error .CipherNotInitialized) ∧
    (∀ d, (MutPairingAuthCtx.decrypt toyPrims
      { state := some [0, 3], our_msg := [0], cipher := none } d).1 =
        .error .CipherNotInitialized) ∧
    (∀ m m2, (MutPairingAuthCtx.init_cipher toyPrims
      (MutPairingAuthCtx.init_cipher toyPrims
        { state := some [0, 3], our_msg := [0], cipher := none } m).2 m2).1 =
          .error .AlreadyInitialized) :=
  claim_C5_misuse_reported toyPrims [3] Role.Client
    { state := some [0, 3], our_msg := [0], cipher := none } rfl

/-- C6: constructing a builder with the empty password fails with
`PasswordEmpty` for every behaviour of the primitives (so no exchange
state is built), and any non-empty password yields a builder whose
outbound message is immediately available as the SPAKE2 start output for
its role. -/
theorem claim_C6_empty_password (P : CryptoPrims) (role : Role) :
    PairingAuthCtxBuilder.new P [] role = .error .PasswordEmpty ∧
    ∀ pswd, pswd ≠ [] →
      ∃ b, PairingAuthCtxBuilder.new P pswd role = .ok b ∧
        (role = Role.Client →
          PairingAuthCtxBuilder.msg b = (P.startA pswd CLIENT_NAME SERVER_NAME).2) ∧
        (role = Role.Server →
          PairingAuthCtxBuilder.msg b = (P.startB pswd CLIENT_NAME SERVER_NAME).2) := by
  constructor
  · simp [PairingAuthCtxBuilder.new]
  · intro pswd hp
    cases role with
    | Client =>
        exact ⟨{ state := (P.startA pswd CLIENT_NAME SERVER_NAME).1,
                 our_msg := (P.startA pswd CLIENT_NAME SERVER_NAME).2 },
          by simp [PairingAuthCtxBuilder.new, hp], fun _ => rfl,
          fun hcon => Role.noConfusion hcon⟩
    | Server =>
        exact ⟨{ state := (P.startB pswd CLIENT_NAME SERVER_NAME).1,
                 our_msg := (P.startB pswd CLIENT_NAME SERVER_NAME).2 },
          by simp [PairingAuthCtxBuilder.new, hp], fun hcon => Role.noConfusion hcon,
          fun _ => rfl⟩

/-- Witness for C6 with the empty password and the password `[4]`. -/
theorem claim_C6_empty_password_witness :
    PairingAuthCtxBuilder.new toyPrims [] Role.Client = .error .PasswordEmpty ∧
    ∃ b, PairingAuthCtxBuilder.new toyPrims [4] Role.Client = .ok b ∧
      (Role.Client = Role.Client →
        PairingAuthCtxBuilder.msg b = (toyPrims.startA [4] CLIENT_NAME SERVER_NAME).2) ∧
      (Role.Client = Role.Server →
        PairingAuthCtxBuilder.msg b = (toyPrims.startB [4] CLIENT_NAME SERVER_NAME).2) :=
  ⟨(claim_C6_empty_password toyPrims Role.Client).1,
    (claim_C6_empty_password toyPrims Role.Client).2 [4] (by decide)⟩

/-- C8: key derivation and encryption are deterministic — the derived key
is exactly the HKDF output (no salt, fixed info string, 16 bytes) for the
key material, cipher construction from the same key material is unique,
and two cipher states with the same key and the same encryption index
produce identical ciphertexts for the same plaintext. -/
theorem claim_C8_determinism (P : CryptoPrims) (km : List Nat) (c : Aes128GcmCipher)
    (hnew : Aes128GcmCipher.new P km = .ok c) :
    P.hkdfExpand none km INFO HKDF_KEY_LENGTH = .ok c.key ∧
    (∀ c2, Aes128GcmCipher.new P km = .ok c2 → c2 = c) ∧
    (∀ c1 c2 m, c1.key = c2.key → c1.enc_sequence = c2.enc_sequence →
      (Aes128GcmCipher.encrypt P c1 m).1 = (Aes128GcmCipher.encrypt P c2 m).1) := by
  refine ⟨(new_ok_shape P km c hnew).2.1, ?_, ?_⟩
  · intro c2 h2
    have h3 := hnew.symm.trans h2
    injection h3 with h4
    exact h4.symm
  · intro c1 c2 m hk he
    unfold Aes128GcmCipher.encrypt
    rw [hk, he]
    cases hE : P.aesGcmEnc c2.key (nonceOf c2.enc_sequence) [] m <;> simp [hE]

/-- Witness for C8 at key material `[5]`. -/
theorem claim_C8_determinism_witness :
    toyPrims.hkdfExpand none [5] INFO HKDF_KEY_LENGTH =
      .ok ({ key := [5], enc_sequence := 0, dec_sequence := 0 } : Aes128GcmCipher).key ∧
    (∀ c2, Aes128GcmCipher.new toyPrims [5] = .ok c2 →
      c2 = { key := [5], enc_sequence := 0, dec_sequence := 0 }) ∧
    (∀ c1 c2 m, c1.key = c2.key → c1.enc_sequence = c2.enc_sequence →
      (Aes128GcmCipher.encrypt toyPrims c1 m).1 =
        (Aes128GcmCipher.encrypt toyPrims c2 m).1) :=
  claim_C8_determinism toyPrims [5]
    { key := [5], enc_sequence := 0, dec_sequence := 0 } rfl

/-- C10: once a first `init_cipher` call has consumed the exchange state of
a fresh mutable context and failed, the context is poisoned: after any
further sequence of operations, `init_cipher` keeps reporting
`AlreadyInitialized` and `encrypt`/`decrypt` keep reporting
`CipherNotInitialized`. -/
theorem claim_C10_poisoned_ctx (P : CryptoPrims) (ctx : MutPairingAuthCtx)
    (st m : List Nat) (hst : ctx.state = some st) (hci : ctx.cipher = none)
    (e : MutPairingAuthError)
    (hfail : (MutPairingAuthCtx.init_cipher P ctx m).1 = .error e) :
    (MutPairingAuthCtx.init_cipher P ctx m).2.state = none ∧
    (MutPairingAuthCtx.init_cipher P ctx m).2.cipher = none ∧
    ∀ ops,
      (∀ m2, (MutPairingAuthCtx.init_cipher P
        (ctxRun P (MutPairingAuthCtx.init_cipher P ctx m).2 ops) m2).1 =
          .error .AlreadyInitialized) ∧
      (∀ d, (MutPairingAuthCtx.encrypt P
        (ctxRun P (MutPairingAuthCtx.init_cipher P ctx m).2 ops) d).1 =
          .error .CipherNotInitialized) ∧
      (∀ d, (MutPairingAuthCtx.decrypt P
        (ctxRun P (MutPairingAuthCtx.init_cipher P ctx m).2 ops) d).1 =
          .error .CipherNotInitialized) := by
  have h1 := mut_init_cipher_clears_state P ctx m st hst
  have h2 : (MutPairingAuthCtx.init_cipher P ctx m).2.cipher = none := by
    rw [mut_init_cipher_fail_no_cipher P ctx m e hfail]
    exact hci
  refine ⟨h1, h2, ?_⟩
  intro ops
  have hrun := ctxRun_dead P ops _ h1 h2
  rw [hrun]
  exact ⟨fun m2 => (mut_init_cipher_taken P _ m2 h1).1,
    fun d => (mut_encrypt_no_cipher P _ d h2).1,
    fun d => (mut_decrypt_no_cipher P _ d h2).1⟩

/-- Witness for C10: a first `init_cipher` that fails (its SPAKE2 state
yields empty key material) poisons the context for every later operation
sequence. -/
theorem claim_C10_poisoned_ctx_witness :
    (MutPairingAuthCtx.init_cipher toyPrims
      { state := some [0], our_msg := [], cipher := none } [9]).2.state = none ∧
    (MutPairingAuthCtx.init_cipher toyPrims
      { state := some [0], our_msg := [], cipher := none } [9]).2.cipher = none ∧
    ∀ ops,
      (∀ m2, (MutPairingAuthCtx.init_cipher toyPrims
        (ctxRun toyPrims (MutPairingAuthCtx.init_cipher toyPrims
          { state := some [0], our_msg := [], cipher := none } [9]).2 ops) m2).1 =
            .error .AlreadyInitialized) ∧
      (∀ d, (MutPairingAuthCtx.encrypt toyPrims
        (ctxRun toyPrims (MutPairingAuthCtx.init_cipher toyPrims
          { state := some [0], our_msg := [], cipher := none } [9]).2 ops) d).1 =
            .error .CipherNotInitialized) ∧
      (∀ d, (MutPairingAuthCtx.decrypt toyPrims
        (ctxRun toyPrims (MutPairingAuthCtx.init_cipher toyPrims
          { state := some [0], our_msg := [], cipher := none } [9]).2 ops) d).1 =
            .error .CipherNotInitialized) :=
  claim_C10_poisoned_ctx toyPrims
    { state := some [0], our_msg := [], cipher := none } [0] [9] rfl rfl
    (.CipherError .KeyMaterialEmpty) rfl
